import Mathlib

/-!
# Verification of the product-scanner server (`server.js`)

A shallow embedding of the pure decision logic of `server.js`:

* the `/api/vision` image pipeline (face-policy gate, auto-crop merge,
  model-hint extraction, OpenAI second opinion),
* the `/api/search` marketplace aggregator (eBay Browse, the Finding
  regional fallback chain, the two scraped sites, and deduplication),
* the eBay OAuth token cache (`getEbayAppToken`).

Conventions of the embedding:

* JavaScript numbers are modelled as `ℚ` (and epoch seconds as `ℤ`);
  `NaN` is modelled explicitly where a claim depends on it (`JsPrice.nan`).
* External calls (Google Vision, OpenAI, axios requests) are modelled as
  inputs: a "world" record supplies the value each call would return, with
  `Option.none` standing for a thrown / failed call.  The functions below
  then reproduce the control flow of `server.js` over those inputs, and
  expose the observable trace (which calls were made) in their results.
* JS string operations (`toUpperCase`, regex matching, `\s`, `\b`) are
  modelled for the ASCII range, which covers every string these code paths
  construct and compare.
-/

namespace ProductScanner

/-! ## JS character classes and string helpers -/

/-- ASCII decimal digit, i.e. the characters matched by the regex class `[0-9]`. -/
def isDigitC (c : Char) : Bool := 48 ≤ c.toNat && c.toNat ≤ 57

/-- ASCII letter, i.e. the characters matched by `[A-Z]` under the `i` flag. -/
def isAsciiLetter (c : Char) : Bool :=
  (65 ≤ c.toNat && c.toNat ≤ 90) || (97 ≤ c.toNat && c.toNat ≤ 122)

/-- JS word character (`\w` = `[A-Za-z0-9_]`), used by the `\b` boundary assertion. -/
def isWordC (c : Char) : Bool := isAsciiLetter c || isDigitC c || c = '_'

/-- The character class `[A-Z0-9-]` of `extractModelHints`, under the `i` flag. -/
def isClassC (c : Char) : Bool := isAsciiLetter c || isDigitC c || c = '-'

/-- JS whitespace (`\s`), restricted to the common ASCII whitespace characters
plus NBSP; `trimTitle` uses it to collapse runs of whitespace. -/
def isJsSpace (c : Char) : Bool :=
  c = ' ' || c = '\t' || c = '\n' || c = '\r' || c = '\x0b' || c = '\x0c' || c = ' '

/-- One character of JS `String.prototype.toUpperCase()` (ASCII range):
this is exactly core `Char.toUpper`. -/
def upChar (c : Char) : Char := Char.toUpper c

/-- JS `s.toUpperCase()` for ASCII strings. -/
def strUpper (s : String) : String := ⟨s.data.map upChar⟩

theorem toNat_ofNat_of_lt {n : Nat} (h : n < 55296) : (Char.ofNat n).toNat = n := by
  rw [Char.ofNat, dif_pos (Or.inl h)]
  rfl

theorem upChar_toNat_ge (c : Char) (h : 97 ≤ c.toNat) (h2 : c.toNat ≤ 122) :
    (upChar c).toNat = c.toNat - 32 := by
  rw [upChar, Char.toUpper]
  rw [if_pos ⟨h, h2⟩]
  exact toNat_ofNat_of_lt (by omega)

theorem upChar_of_not_lower (c : Char) (h : ¬ (97 ≤ c.toNat ∧ c.toNat ≤ 122)) :
    upChar c = c := by
  rw [upChar, Char.toUpper, if_neg]
  exact fun hc => h ⟨hc.1, hc.2⟩

/-- `toUpperCase` is idempotent character-wise. -/
theorem upChar_idem (c : Char) : upChar (upChar c) = upChar c := by
  by_cases h : 97 ≤ c.toNat ∧ c.toNat ≤ 122
  · apply upChar_of_not_lower
    rw [upChar, Char.toUpper, if_pos ⟨h.1, h.2⟩]
    have := @toNat_ofNat_of_lt (c.toNat - 32) (by omega)
    omega
  · rw [upChar_of_not_lower c h, upChar_of_not_lower c h]

theorem upChar_of_digit (c : Char) (h : isDigitC c = true) : upChar c = c := by
  apply upChar_of_not_lower
  simp only [isDigitC, Bool.and_eq_true, decide_eq_true_eq] at h
  omega

/-- `toUpperCase` is idempotent string-wise. -/
theorem strUpper_idem (s : String) : strUpper (strUpper s) = strUpper s := by
  have h : upChar ∘ upChar = upChar := funext upChar_idem
  simp [strUpper, List.map_map, h]

theorem strUpper_of_all_digits (s : String) (h : ∀ c ∈ s.data, isDigitC c = true) :
    strUpper s = s := by
  cases s with
  | mk data =>
    simp only [strUpper]
    congr 1
    exact (List.map_congr_left fun c hc => upChar_of_digit c (h c hc)).trans
      (List.map_id _)

/-! ## Order-preserving deduplication (JS `new Set([...])` + `Array.from`) -/

/-- Helper for `dedupFirst`: keeps elements not in `seen`, first occurrence wins. -/
def dedupFirstAux (seen : List String) : List String → List String
  | [] => []
  | x :: xs =>
    if x ∈ seen then dedupFirstAux seen xs
    else x :: dedupFirstAux (x :: seen) xs

/-- `Array.from(new Set(l))`: removes duplicates keeping the first occurrence of
each string, preserving first-seen order (JS `Set` iterates in insertion order). -/
def dedupFirst (l : List String) : List String := dedupFirstAux [] l

theorem mem_dedupFirstAux {a : String} {seen l} :
    a ∈ dedupFirstAux seen l ↔ a ∈ l ∧ a ∉ seen := by
  induction l generalizing seen with
  | nil => simp [dedupFirstAux]
  | cons x xs ih =>
    by_cases hx : x ∈ seen
    · rw [dedupFirstAux, if_pos hx, ih]
      constructor
      · exact fun ⟨h1, h2⟩ => ⟨List.mem_cons_of_mem _ h1, h2⟩
      · rintro ⟨h1, h2⟩
        rcases List.mem_cons.mp h1 with rfl | h1
        · exact absurd hx h2
        · exact ⟨h1, h2⟩
    · rw [dedupFirstAux, if_neg hx]
      constructor
      · intro h
        rcases List.mem_cons.mp h with rfl | h
        · exact ⟨List.mem_cons_self _ _, hx⟩
        · have := (@ih (x :: seen)).mp h
          exact ⟨List.mem_cons_of_mem _ this.1,
            fun hs => this.2 (List.mem_cons_of_mem _ hs)⟩
      · rintro ⟨h1, h2⟩
        rcases List.mem_cons.mp h1 with rfl | h1
        · exact List.mem_cons_self _ _
        · by_cases hax : a = x
          · subst hax; exact List.mem_cons_self _ _
          · exact List.mem_cons_of_mem _ ((@ih (x :: seen)).mpr
              ⟨h1, by simp [hax, h2]⟩)

theorem mem_dedupFirst {a : String} {l} : a ∈ dedupFirst l ↔ a ∈ l := by
  rw [dedupFirst, mem_dedupFirstAux]; simp

theorem nodup_dedupFirstAux (seen l) : (dedupFirstAux seen l).Nodup := by
  induction l generalizing seen with
  | nil => simp [dedupFirstAux]
  | cons x xs ih =>
    by_cases hx : x ∈ seen
    · rw [dedupFirstAux, if_pos hx]; exact ih seen
    · rw [dedupFirstAux, if_neg hx]
      refine List.nodup_cons.mpr ⟨fun hmem => ?_, ih (x :: seen)⟩
      exact (mem_dedupFirstAux.mp hmem).2 (List.mem_cons_self _ _)

theorem nodup_dedupFirst (l) : (dedupFirst l).Nodup := nodup_dedupFirstAux [] l

/-! ## The three regexes of `extractModelHints`

`server.js` runs three global regexes over the OCR text:

1. `/\b[0-9]{4,6}\b/g`
2. `/\bSM-[A-Z0-9-]+\b/gi`
3. `/\b(?=[A-Z0-9-]*[0-9])(?=[A-Z0-9-]*[A-Z])[A-Z0-9-]{5,}\b/gi`

Each is embedded as a match-at-position function, driven by a generic global
scanner that reproduces JS `String.prototype.match` with the `g` flag:
repeatedly find the leftmost match, emit it, and resume right after it.
The scanner threads the character before the current position so that the
`\b` word-boundary assertion can be evaluated exactly. -/

/-- Word-ness of an optional character; a string edge counts as non-word for `\b`. -/
def isWordO : Option Char → Bool
  | none => false
  | some c => isWordC c

/-- Length of the maximal run of `[0-9]` characters at the head of the list. -/
def digitRun : List Char → Nat
  | [] => 0
  | c :: cs => if isDigitC c then digitRun cs + 1 else 0

/-- Length of the maximal run of `[A-Z0-9-]` (case-insensitive) characters at
the head of the list. -/
def classRun : List Char → Nat
  | [] => 0
  | c :: cs => if isClassC c then classRun cs + 1 else 0

/-- `\b` between positions `n-1` and `n` of `cs` (JS: word-ness differs across
the position; out-of-range counts as non-word). -/
def boundaryAfter (cs : List Char) (n : Nat) : Bool :=
  isWordO (cs.get? (n - 1)) != isWordO (cs.get? n)

/-- Matcher for `\b[0-9]{4,6}\b` at the current position: the first matched
character is a digit (a word character), so the leading `\b` holds iff the
previous character is not a word character; the greedy `{4,6}` tries 6, 5,
then 4 digits, each followed by the trailing `\b`. Returns the match length. -/
def match1At (prevW : Bool) (cs : List Char) : Option Nat :=
  if prevW then none
  else if 6 ≤ digitRun cs ∧ !isWordO (cs.get? 6) then some 6
  else if 5 ≤ digitRun cs ∧ !isWordO (cs.get? 5) then some 5
  else if 4 ≤ digitRun cs ∧ !isWordO (cs.get? 4) then some 4
  else none

/-- Greedy backtracking for a trailing `\b` after a run of class characters:
try total match length `off + len` for `len` from the argument down to
`minLen`, returning the first length at which `\b` holds. -/
def backFrom (cs : List Char) (minLen off : Nat) : Nat → Option Nat
  | 0 => none
  | len + 1 =>
    if len + 1 < minLen then none
    else if boundaryAfter cs (off + len + 1) then some (off + len + 1)
    else backFrom cs minLen off len

/-- Matcher for `\bSM-[A-Z0-9-]+\b` (case-insensitive) at the current position:
literal `S`/`M` (either case) and `-`, then a greedy run of at least one class
character, backtracking until the trailing `\b` holds. -/
def match2At (prevW : Bool) (cs : List Char) : Option Nat :=
  if prevW then none else
  match cs with
  | c1 :: c2 :: c3 :: rest =>
    if (c1 = 'S' ∨ c1 = 's') ∧ (c2 = 'M' ∨ c2 = 'm') ∧ c3 = '-' then
      backFrom cs 1 3 (classRun rest)
    else none
  | _ => none

/-- Matcher for `\b(?=[A-Z0-9-]*[0-9])(?=[A-Z0-9-]*[A-Z])[A-Z0-9-]{5,}\b`
(case-insensitive) at the current position. The two lookaheads hold iff the
maximal class run starting here contains a digit resp. a letter (the digit and
the letter are themselves class characters, and the run cannot extend past a
non-class character); then the greedy `{5,}` backtracks for the trailing `\b`. -/
def match3At (prevW : Bool) (cs : List Char) : Option Nat :=
  match cs with
  | [] => none
  | c :: _ =>
    if prevW = isWordC c then none else
    let m := classRun cs
    let run := cs.take m
    if run.any isDigitC ∧ run.any isAsciiLetter then backFrom cs 5 0 m
    else none

/-- Generic global scan (JS `str.match(re)` with flag `g`): at each position try
`matchAt`; on success emit the matched substring and resume after it, otherwise
advance one character. `prevW` is the word-ness of the previous character (for
`\b`); `fuel` bounds recursion and is initialised to the string length, which
is sufficient because every step consumes at least one character. -/
def scanFuel (matchAt : Bool → List Char → Option Nat) :
    Nat → Bool → List Char → List String
  | 0, _, _ => []
  | _ + 1, _, [] => []
  | fuel + 1, prevW, c :: rest =>
    match matchAt prevW (c :: rest) with
    | some n =>
      let k := max n 1
      (⟨(c :: rest).take n⟩ : String) ::
        scanFuel matchAt fuel (isWordO ((c :: rest).get? (k - 1))) ((c :: rest).drop k)
    | none => scanFuel matchAt fuel (isWordC c) rest

/-- `ocrText.match(/\b[0-9]{4,6}\b/g) || []`. -/
def jsMatch1 (s : String) : List String := scanFuel match1At s.data.length false s.data

/-- `ocrText.match(/\bSM-[A-Z0-9-]+\b/gi) || []`. -/
def jsMatch2 (s : String) : List String := scanFuel match2At s.data.length false s.data

/-- `ocrText.match(/\b(?=...[0-9])(?=...[A-Z])[A-Z0-9-]{5,}\b/gi) || []`. -/
def jsMatch3 (s : String) : List String := scanFuel match3At s.data.length false s.data

/-- `extractModelHints` from `server.js`: the three regex passes feed a `Set`
(first occurrence wins; the second and third passes upper-case their matches
before insertion), and the result is truncated to 10 entries. -/
def extractModelHints (ocrText : String) : List String :=
  (dedupFirst (jsMatch1 ocrText ++
    (jsMatch2 ocrText).map strUpper ++
    (jsMatch3 ocrText).map strUpper)).take 10

theorem mem_take_digitRun {cs : List Char} {k : Nat} (hk : k ≤ digitRun cs) :
    ∀ c ∈ cs.take k, isDigitC c = true := by
  induction cs generalizing k with
  | nil => simp
  | cons x xs ih =>
    cases k with
    | zero => simp
    | succ k =>
      rw [digitRun] at hk
      by_cases hx : isDigitC x
      · rw [if_pos hx] at hk
        intro c hc
        rcases List.mem_cons.mp (by simpa using hc) with rfl | hc'
        · exact hx
        · exact ih (Nat.le_of_succ_le_succ hk) c hc'
      · rw [if_neg hx] at hk; omega

theorem match1At_le_digitRun {prevW cs n} (h : match1At prevW cs = some n) :
    n ≤ digitRun cs := by
  rw [match1At] at h
  split at h
  · exact absurd h (by simp)
  · split at h
    · next hc => injection h with h'; omega
    · split at h
      · next hc => injection h with h'; omega
      · split at h
        · next hc => injection h with h'; omega
        · exact absurd h (by simp)

theorem scanFuel_match1_digits {fuel prevW cs} {s : String}
    (hs : s ∈ scanFuel match1At fuel prevW cs) : ∀ c ∈ s.data, isDigitC c = true := by
  induction fuel generalizing prevW cs with
  | zero => simp [scanFuel] at hs
  | succ fuel ih =>
    match cs with
    | [] => simp [scanFuel] at hs
    | c :: rest =>
      rw [scanFuel] at hs
      cases hm : match1At prevW (c :: rest) with
      | none => rw [hm] at hs; exact ih hs
      | some n =>
        rw [hm] at hs
        rcases List.mem_cons.mp hs with rfl | hs'
        · exact mem_take_digitRun (match1At_le_digitRun hm)
        · exact ih hs'

/-! ## Canonical listings and `/api/search` deduplication -/

/-- The JS value held in a listing's `price` field: `null`, `NaN` (from
`parseFloat` on unparseable price text), or a finite number (modelled as `ℚ`). -/
inductive JsPrice where
  | null : JsPrice
  | nan : JsPrice
  | num : ℚ → JsPrice
deriving DecidableEq, Repr

/-- JS truthiness of a price value: `null`, `NaN` and `0` are falsy. -/
def JsPrice.truthy : JsPrice → Bool
  | .null => false
  | .nan => false
  | .num q => q != 0

/-- Fractional decimal digits of `rem / d`, up to `fuel` digits. -/
def fracDigits (d : Nat) : Nat → Nat → String
  | _, 0 => ""
  | rem, fuel + 1 =>
    if rem = 0 then ""
    else toString (rem * 10 / d) ++ fracDigits d (rem * 10 % d) fuel

/-- Decimal rendering of a rational, standing in for JS number-to-string
conversion (`'' + price`); truncated to at most 10 fractional digits, which
covers the decimal price values flowing through this program. -/
def ratToJsString (q : ℚ) : String :=
  (if q < 0 then "-" else "") ++ toString (q.num.natAbs / q.den) ++
    (if q.num.natAbs % q.den = 0 then ""
     else "." ++ fracDigits q.den (q.num.natAbs % q.den) 10)

/-- The contribution of the `price` field to the dedup key:
`(r.price || '')` — falsy values coerce to the empty string, other numbers to
their decimal rendering. -/
def JsPrice.keyStr : JsPrice → String
  | .null => ""
  | .nan => ""
  | .num q => if q = 0 then "" else ratToJsString q

/-- A canonical listing as produced by the provider adapters.  The `url` field
of `server.js` (the output of `sanitizeUrl`) is not modelled: no claim refers
to it and it flows through the aggregator and the dedup loop untouched. -/
structure Listing where
  title : String
  source : String
  price : JsPrice
  currency : String
deriving DecidableEq, Repr

/-- The dedup key of the `/api/search` loop:
`(r.title || '') + '|' + (r.price || '') + '|' + (r.source || '')`
(`x || ''` is the identity on strings, since `''` is itself falsy). -/
def listingKey (r : Listing) : String :=
  r.title ++ "|" ++ r.price.keyStr ++ "|" ++ r.source

/-- The dedup loop of `/api/search`:
`if (!seen.has(key) && r.title) { seen.add(key); dedup.push(r); }`. -/
def dedupAux (seen : List String) : List Listing → List Listing
  | [] => []
  | r :: rs =>
    if listingKey r ∉ seen ∧ r.title ≠ "" then r :: dedupAux (listingKey r :: seen) rs
    else dedupAux seen rs

/-- Deduplicated listing sequence, as returned by `/api/search`. -/
def dedupListings (l : List Listing) : List Listing := dedupAux [] l

theorem dedupAux_sublist (seen l) : (dedupAux seen l).Sublist l := by
  induction l generalizing seen with
  | nil => simp [dedupAux]
  | cons r rs ih =>
    rw [dedupAux]
    split
    · exact List.Sublist.cons₂ r (ih _)
    · exact List.Sublist.cons r (ih _)

/-- With all titles nonempty, the dedup loop keeps exactly the first occurrence
of each key: the keys of the output are the distinct input keys in first-seen
order. -/
theorem dedupAux_map_key {l : List Listing} (ht : ∀ r ∈ l, r.title ≠ "") (seen) :
    (dedupAux seen l).map listingKey = dedupFirstAux seen (l.map listingKey) := by
  induction l generalizing seen with
  | nil => simp [dedupAux, dedupFirstAux]
  | cons r rs ih =>
    have htr := ht r (List.mem_cons_self _ _)
    have htrs : ∀ x ∈ rs, x.title ≠ "" := fun x hx => ht x (List.mem_cons_of_mem _ hx)
    rw [dedupAux, List.map_cons, dedupFirstAux]
    by_cases hk : listingKey r ∈ seen
    · rw [if_neg (by simp [hk]), if_pos hk]
      exact ih htrs seen
    · rw [if_pos ⟨hk, htr⟩, if_neg hk, List.map_cons, ih htrs]

/-- With all titles nonempty, every survivor of the dedup loop is the *first*
input listing bearing its key (and its key was not previously seen). -/
theorem dedupAux_find? {l : List Listing} (ht : ∀ r ∈ l, r.title ≠ "")
    {seen} {r' : Listing} (h : r' ∈ dedupAux seen l) :
    listingKey r' ∉ seen ∧ l.find? (fun x => listingKey x == listingKey r') = some r' := by
  induction l generalizing seen with
  | nil => simp [dedupAux] at h
  | cons r rs ih =>
    have htrs : ∀ x ∈ rs, x.title ≠ "" := fun x hx => ht x (List.mem_cons_of_mem _ hx)
    rw [dedupAux] at h
    split at h
    · next hcond =>
      rcases List.mem_cons.mp h with rfl | h'
      · refine ⟨hcond.1, ?_⟩
        rw [List.find?_cons, show (listingKey r' == listingKey r') = true from
          beq_self_eq_true _]
      · obtain ⟨hnot, hfind⟩ := ih htrs h'
        have hne : listingKey r ≠ listingKey r' := by
          intro he
          exact hnot (he ▸ List.mem_cons_self _ _)
        refine ⟨fun hs => hnot (List.mem_cons_of_mem _ hs), ?_⟩
        rw [List.find?_cons, show (listingKey r == listingKey r') = false from
          beq_eq_false_iff_ne.mpr hne]
        exact hfind
    · next hcond =>
      obtain ⟨hnot, hfind⟩ := ih htrs h
      have hmem : listingKey r ∈ seen := by
        by_contra hc
        exact hcond ⟨hc, ht r (List.mem_cons_self _ _)⟩
      have hne : listingKey r ≠ listingKey r' := fun he => hnot (he ▸ hmem)
      refine ⟨hnot, ?_⟩
      rw [List.find?_cons, show (listingKey r == listingKey r') = false from
        beq_eq_false_iff_ne.mpr hne]
      exact hfind

/-! ## eBay OAuth token cache (`getEbayAppToken`) -/

/-- The module-level cache `_ebayToken` / `_ebayTokenExp` (epoch seconds). -/
structure TokenState where
  token : Option String
  exp : Int
deriving DecidableEq, Repr

/-- The body of a successful token-endpoint response:
`access_token` and an optional `expires_in` (seconds); `none` models a missing
field and `some 0` a present-but-zero one — both are falsy under `|| 7200`. -/
structure TokenResp where
  access_token : String
  expires_in : Option Int
deriving DecidableEq, Repr

/-- `resp.data.expires_in || 7200`. -/
def lifetimeOrDefault : Option Int → Int
  | none => 7200
  | some v => if v = 0 then 7200 else v

/-- JS truthiness of the cached token (`_ebayToken &&`): `null` and `''` are falsy. -/
def tokenTruthy : Option String → Bool
  | none => false
  | some s => s != ""

/-- Result of one `getEbayAppToken()` call: `result = none` models the
client-credentials request throwing (propagated to the caller); otherwise the
returned value (`null` when credentials are missing, else the token).
`exchanged` records whether the token endpoint was contacted. -/
structure TokenCall where
  result : Option (Option String)
  state : TokenState
  exchanged : Bool
deriving DecidableEq, Repr

/-- `getEbayAppToken` from `server.js`: return the cached token when it is
truthy and `now < _ebayTokenExp - 60`; otherwise, with no configured
credentials return `null`, else exchange client credentials (`exchange` is the
response; `none` = the POST throws) and cache the new token with expiry
`now + (expires_in || 7200)`. -/
def getEbayAppToken (st : TokenState) (now : Int) (creds : Bool)
    (exchange : Option TokenResp) : TokenCall :=
  if tokenTruthy st.token ∧ now < st.exp - 60 then ⟨some st.token, st, false⟩
  else if ¬ creds then ⟨some none, st, false⟩
  else match exchange with
    | none => ⟨none, st, true⟩
    | some r => ⟨some (some r.access_token),
        ⟨some r.access_token, now + lifetimeOrDefault r.expires_in⟩, true⟩

/-! ## Marketplace providers and the `/api/search` aggregator -/

/-- Whitespace collapsing of `trimTitle`: `.replace(/\s+/g, ' ')` — every
maximal whitespace run becomes a single space.  `pendingRun` records whether
the previous character belonged to the current run. -/
def collapseWsAux (pendingRun : Bool) : List Char → List Char
  | [] => []
  | c :: cs =>
    if isJsSpace c then
      if pendingRun then collapseWsAux true cs else ' ' :: collapseWsAux true cs
    else c :: collapseWsAux false cs

/-- `trimTitle` from `server.js`: `(t || '').replace(/\s+/g, ' ').trim()`. -/
def trimTitle (t : String) : String :=
  ⟨(((collapseWsAux false t.data).dropWhile (· = ' ')).reverse.dropWhile
      (· = ' ')).reverse⟩

/-- `normCurrency` from `server.js`. -/
def normCurrency (cur : String) : String :=
  if cur = "" then "EUR" else if cur = "€" then "EUR" else strUpper cur

/-- A raw eBay item as the Browse / Finding adapters see it, after the wire
accessors: `title` (missing titles arrive as `''` through `t || ''`), the
price value (`parseFloat` result or `null` when the price block is missing),
and the raw currency code (`none` when missing, falsy under `|| 'EUR'`). -/
structure EbayRawItem where
  title : String
  price : JsPrice
  currency : Option String
deriving DecidableEq, Repr

/-- `cur || 'EUR'`. -/
def currencyOrDefault : Option String → String
  | none => "EUR"
  | some c => if c = "" then "EUR" else c

/-- Normalization both eBay adapters apply per item:
`if (title) results.push({ title, source, price, currency, url })` with
`title = trimTitle(...)` and `currency = normCurrency(cur || 'EUR')`. -/
def normEbayItem (src : String) (it : EbayRawItem) : Option Listing :=
  let t := trimTitle it.title
  if t = "" then none
  else some ⟨t, src, it.price, normCurrency (currencyOrDefault it.currency)⟩

/-- `callEbayBrowse`: acquiring a token that throws (`tok.result = none`), a
falsy token, or a failing search request (`resp = none`) all end in `catch` /
`return false` with nothing pushed; otherwise the normalized items for the
single marketplace `EBAY_GB` are pushed and the call returns `true`.  (The
`results.length >= 6` break is vacuous with a one-element marketplace list.) -/
def callEbayBrowse (tok : TokenCall) (resp : Option (List EbayRawItem)) :
    Bool × List Listing :=
  match tok.result with
  | none => (false, [])
  | some none => (false, [])
  | some (some t) =>
    if t = "" then (false, [])
    else match resp with
      | none => (false, [])
      | some items => (true, items.filterMap (normEbayItem "eBay (EBAY_GB)"))

/-- Result of `callEbayFinding`: overall success flag, pushed listings, and the
ordered list of regional `GLOBAL-ID`s actually contacted. -/
structure FindingCall where
  ok : Bool
  listings : List Listing
  calls : List String
deriving DecidableEq, Repr

/-- `callEbayFinding`: nothing happens without `EBAY_APP_ID`; otherwise the
regions `EBAY-IE`, `EBAY-GB`, `EBAY-US` are tried in that order, stopping at
the first call that succeeds (`some items`, even when `items` is short or
empty); a failed call (`none`) falls through to the next region. -/
def callEbayFinding (appId : Bool)
    (rIE rGB rUS : Option (List EbayRawItem)) : FindingCall :=
  if ¬ appId then ⟨false, [], []⟩
  else match rIE with
  | some items => ⟨true, items.filterMap (normEbayItem "eBay (EBAY-IE)"), ["EBAY-IE"]⟩
  | none =>
    match rGB with
    | some items =>
        ⟨true, items.filterMap (normEbayItem "eBay (EBAY-GB)"),
          ["EBAY-IE", "EBAY-GB"]⟩
    | none =>
      match rUS with
      | some items =>
          ⟨true, items.filterMap (normEbayItem "eBay (EBAY-US)"),
            ["EBAY-IE", "EBAY-GB", "EBAY-US"]⟩
      | none => ⟨false, [], ["EBAY-IE", "EBAY-GB", "EBAY-US"]⟩

/-- A scraped result card after the selector/`parseFloat` steps: the raw title
text and the parsed price (`null` when the cleaned price text was empty). -/
structure ScrapeRawItem where
  title : String
  price : JsPrice
deriving DecidableEq, Repr

/-- `scrapeDoneDeal` / `scrapeAdverts`: any fetch/parse error yields zero
listings; otherwise the first 12 result cards are normalized (`trimTitle`,
empty titles dropped, currency fixed to `EUR`). -/
def scrapeSite (src : String) (resp : Option (List ScrapeRawItem)) : List Listing :=
  match resp with
  | none => []
  | some cards =>
    (cards.take 12).filterMap fun card =>
      let t := trimTitle card.title
      if t = "" then none else some ⟨t, src, card.price, "EUR"⟩

/-- Everything `/api/search` consumes from the outside world in one request. -/
structure SearchWorld where
  tokenState : TokenState
  now : Int
  creds : Bool
  tokenExchange : Option TokenResp
  browseResp : Option (List EbayRawItem)
  appId : Bool
  findingIE : Option (List EbayRawItem)
  findingGB : Option (List EbayRawItem)
  findingUS : Option (List EbayRawItem)
  doneDeal : Option (List ScrapeRawItem)
  adverts : Option (List ScrapeRawItem)

/-- Observables of one `/api/search` request. -/
structure SearchOutcome where
  results : List Listing
  browseUsed : Bool
  browseCount : Nat
  findingInvoked : Bool
  findingCalls : List String
deriving DecidableEq, Repr

/-- The `/api/search` handler (after the `query` presence check): Browse first;
the Finding fallback iff Browse was unavailable or fewer than 4 listings have
been collected; both scraped sites unconditionally; then the dedup loop. -/
def apiSearch (w : SearchWorld) : SearchOutcome :=
  let tok := getEbayAppToken w.tokenState w.now w.creds w.tokenExchange
  let browse := callEbayBrowse tok w.browseResp
  let invoked : Bool := !browse.1 || decide (browse.2.length < 4)
  let finding :=
    if invoked then callEbayFinding w.appId w.findingIE w.findingGB w.findingUS
    else ⟨false, [], []⟩
  let dd := scrapeSite "DoneDeal" w.doneDeal
  let ad := scrapeSite "Adverts.ie" w.adverts
  { results := dedupListings (browse.2 ++ finding.listings ++ dd ++ ad)
    browseUsed := browse.1
    browseCount := browse.2.length
    findingInvoked := invoked
    findingCalls := finding.calls }

/-! ## Signal bundles and the `/api/vision` pipeline -/

/-- One entry of `labelAnnotations` after normalization. -/
structure LabelAnn where
  description : String
  score : ℚ
deriving DecidableEq, Repr

/-- A normalized vertex of a bounding polygon; coordinates may be missing on
the wire (`v.x || 0`). -/
structure NVertex where
  x : Option ℚ
  y : Option ℚ
deriving DecidableEq, Repr

/-- One entry of `localizedObjectAnnotations` (for the bundle's `objects` and
for `cropPrimaryObject`); `score` may be missing (`x.score || 0`), and a
missing `boundingPoly`/`normalizedVertices` arrives as `[]`. -/
structure ObjAnn where
  name : String
  score : Option ℚ
  box : List NVertex
deriving DecidableEq, Repr

/-- The signal bundle produced by `runVisionAllFeatures` for one pass (the
`safeSearch` map is opaque and passed through unmodified). -/
structure SignalBundle where
  labels : List LabelAnn
  logos : List String
  objects : List ObjAnn
  safeSearch : List (String × String)
  faceCount : Nat
  ocrText : String
  bestGuess : String
  webEntities : List String
deriving DecidableEq, Repr

/-- `[a, b].filter(Boolean).join('\n')` for two strings. -/
def joinNonEmptyNl (a b : String) : String :=
  if a ≠ "" ∧ b ≠ "" then a ++ "\n" ++ b
  else if a ≠ "" then a else b

/-- The merge step of `/api/vision` (`merged = { ...merged, ... }`): labels and
objects concatenated, logos and web entities unioned as insertion-ordered sets,
OCR texts joined by a newline skipping empty halves, `bestGuess` kept unless
empty; `faceCount` and `safeSearch` are carried over by the spread. -/
def mergeCropSignals (m c : SignalBundle) : SignalBundle :=
  { m with
    labels := m.labels ++ c.labels
    logos := dedupFirst (m.logos ++ c.logos)
    objects := m.objects ++ c.objects
    ocrText := joinNonEmptyNl m.ocrText c.ocrText
    bestGuess := if m.bestGuess = "" then c.bestGuess else m.bestGuess
    webEntities := dedupFirst (m.webEntities ++ c.webEntities) }

/-- `x.score || 0`. -/
def jsScore (a : ObjAnn) : ℚ := a.score.getD 0

/-- First element of `anns.sort((a, b) => (b.score || 0) - (a.score || 0))`:
JS `Array.prototype.sort` is stable, so the head of the descending sort is the
first annotation attaining the maximal score (ties broken by first-seen order),
computed here directly as a fold. -/
def topByScore : List ObjAnn → Option ObjAnn
  | [] => none
  | a :: rest => some (rest.foldl (fun best x => if jsScore best < jsScore x then x else best) a)

/-- `Math.max(0, Math.min(1, q))`. -/
def clamp01 (q : ℚ) : ℚ := max 0 (min 1 q)

/-- Minimum of a nonempty list of rationals (`Math.min(...xs)`); `0` for `[]`
(unreachable: callers pass at least 4 vertices). -/
def qListMin : List ℚ → ℚ
  | [] => 0
  | a :: as => as.foldl min a

/-- Maximum of a nonempty list of rationals (`Math.max(...xs)`). -/
def qListMax : List ℚ → ℚ
  | [] => 0
  | a :: as => as.foldl max a

/-- The crop rectangle `cropPrimaryObject` would extract. -/
structure CropRect where
  left : Int
  top : Int
  width : Int
  height : Int
deriving DecidableEq, Repr

/-- The pure decision logic of `cropPrimaryObject`, given the object
annotations returned by the localization call and the image dimensions
(`meta.width || 0`, `meta.height || 0`): no annotations, fewer than 4 polygon
vertices on the top-scored annotation, a missing dimension, or a resulting
crop smaller than 50×50 pixels all yield "no region" (`none`). -/
def cropPrimaryObject (anns : List ObjAnn) (W H : Nat) : Option CropRect :=
  match topByScore anns with
  | none => none
  | some top =>
    if top.box.length < 4 then none
    else if W = 0 ∨ H = 0 then none
    else
      let xs := top.box.map fun v => clamp01 ((v.x).getD 0)
      let ys := top.box.map fun v => clamp01 ((v.y).getD 0)
      let minX := max 0 (qListMin xs - 6/100)
      let maxX := min 1 (qListMax xs + 6/100)
      let minY := max 0 (qListMin ys - 6/100)
      let maxY := min 1 (qListMax ys + 6/100)
      let left := ⌊minX * W⌋
      let topY := ⌊minY * H⌋
      let width := min ((W : Int) - left) ⌈(maxX - minX) * W⌉
      let height := min ((H : Int) - topY) ⌈(maxY - minY) * H⌉
      if width < 50 ∨ height < 50 then none
      else some ⟨left, topY, width, height⟩

/-! ### The OpenAI "second opinion" extractor -/

/-- A JSON value, as produced by `JSON.parse`. -/
inductive JVal where
  | jnull : JVal
  | jbool : Bool → JVal
  | jnum : ℚ → JVal
  | jstr : String → JVal
  | jarr : List JVal → JVal
  | jobj : List (String × JVal) → JVal

/-- JS property access `json.k` on a parsed value: `none` (`undefined`) unless
the value is an object with field `k` (on duplicate keys `JSON.parse` keeps
the last, hence the reversed lookup). -/
def jGet (j : JVal) (k : String) : Option JVal :=
  match j with
  | .jobj fields => fields.reverse.lookup k
  | _ => none

/-- `json.k || ''` coerced to the string the rest of the pipeline expects:
the field's value when it is a truthy string, `''` otherwise (missing, `null`,
`''`, and other falsy values; a truthy non-string value — which the defensive
parse of `server.js` would pass through — is conflated with the missing case,
as every downstream consumer treats the field as a string). -/
def jStrOrEmpty : Option JVal → String
  | some (.jstr s) => s
  | _ => ""

/-- `Array.isArray(json.synonyms) ? json.synonyms : []`. -/
def jArrOrEmpty : Option JVal → List JVal
  | some (.jarr l) => l
  | _ => []

/-- `typeof json.confidence === 'number' ? json.confidence : 0`. -/
def jNumOrZero : Option JVal → ℚ
  | some (.jnum q) => q
  | _ => 0

/-- The structured guess `runOpenAIVisionExtract` builds from the parsed JSON. -/
structure SecondOpinion where
  brand : String
  model : String
  product_type : String
  synonyms : List JVal
  confidence : ℚ

/-- Field extraction of `runOpenAIVisionExtract` over the parse result `json`. -/
def extractSecondOpinion (json : JVal) : SecondOpinion :=
  { brand := jStrOrEmpty (jGet json "brand")
    model := jStrOrEmpty (jGet json "model")
    product_type := jStrOrEmpty (jGet json "product_type")
    synonyms := jArrOrEmpty (jGet json "synonyms")
    confidence := jNumOrZero (jGet json "confidence") }

/-- `runOpenAIVisionExtract`: `call = none` models the request (or response
access) throwing — the `catch` returns `null`.  Otherwise `call = some p`
carries the parse outcome of the returned content (`p = none`: `JSON.parse`
threw, so `json = {}`): the extractor then always returns a structured guess
with every field defaulted from `json`. -/
def runOpenAIVisionExtract (call : Option (Option JVal)) : Option SecondOpinion :=
  match call with
  | none => none
  | some p => some (extractSecondOpinion (p.getD (.jobj [])))

/-- The post-merge folding of a present second opinion into the bundle:
a truthy `brand` joins the logos set, a truthy `product_type` joins the
web-entities set (both as `Array.from(new Set([...xs, v]))`). -/
def foldSecondOpinion (m : SignalBundle) : Option SecondOpinion → SignalBundle
  | none => m
  | some so =>
    let m1 := if so.brand ≠ "" then
        { m with logos := dedupFirst (m.logos ++ [so.brand]) } else m
    if so.product_type ≠ "" then
      { m1 with webEntities := dedupFirst (m1.webEntities ++ [so.product_type]) }
    else m1

/-! ### The `/api/vision` pipeline -/

/-- Everything the `/api/vision` handler consumes from the outside world for
one request (after base64 decoding and `prepForOCR`, whose failures are
request-fatal and carry no pipeline logic):

* `firstPass`: the first `runVisionAllFeatures` bundle (`none` = the call threw,
  a fatal 500),
* `objAnns`: the `objectLocalization` response inside `cropPrimaryObject`
  (`none` = it threw; caught, crop skipped),
* `metaW`/`metaH`: `meta.width || 0`, `meta.height || 0`,
* `cropPass`: the second `runVisionAllFeatures` bundle over the crop
  (`none` = that step threw; caught, merge skipped),
* `openAI`: the second-opinion call as in `runOpenAIVisionExtract`. -/
structure VisionWorld where
  firstPass : Option SignalBundle
  objAnns : Option (List ObjAnn)
  metaW : Nat
  metaH : Nat
  cropPass : Option SignalBundle
  openAI : Option (Option JVal)

/-- The successful response body of `/api/vision`:
`{ ...merged, modelHints, secondOpinion }`. -/
structure VisionResp where
  bundle : SignalBundle
  modelHints : List String
  secondOpinion : Option SecondOpinion

/-- Observables of one `/api/vision` request: HTTP status, the response (when
successful), the merged bundle right after the crop-merge step (before the
second opinion is folded in), and which external calls were attempted. -/
structure VisionRun where
  status : Nat
  resp : Option VisionResp
  fused : Option SignalBundle
  cropAttempted : Bool
  secondVisionCall : Bool
  openAICalled : Bool

/-- The `/api/vision` handler: a failed first pass is a fatal 500; a positive
`faceCount` on the first pass is an immediate 400 policy rejection with no
further call of any kind; otherwise the optional crop pass is merged into the
bundle (any failure there is swallowed), model hints are derived from the
merged OCR text, and the second opinion is requested and folded in. -/
def apiVision (w : VisionWorld) : VisionRun :=
  match w.firstPass with
  | none => ⟨500, none, none, false, false, false⟩
  | some base =>
    if base.faceCount > 0 then ⟨400, none, none, false, false, false⟩
    else
      let cropRect :=
        match w.objAnns with
        | none => none
        | some anns => cropPrimaryObject anns w.metaW w.metaH
      let mergedCall : SignalBundle × Bool :=
        match cropRect, w.cropPass with
        | some _, some cp => (mergeCropSignals base cp, true)
        | some _, none => (base, true)
        | none, _ => (base, false)
      let merged := mergedCall.1
      let hints := extractModelHints merged.ocrText
      let so := runOpenAIVisionExtract w.openAI
      ⟨200, some ⟨foldSecondOpinion merged so, hints, so⟩, some merged,
        true, mergedCall.2, true⟩

/-! ## Claims -/

/-- **C1**: whenever the first analysis pass yields `faceCount > 0`, `/api/vision`
returns the 400 policy rejection and attempts no further step or external call:
no object-localization / crop, no second vision pass, no OpenAI second opinion. -/
theorem faceGate_policy (w : VisionWorld) (b : SignalBundle)
    (hb : w.firstPass = some b) (hface : 0 < b.faceCount) :
    (apiVision w).status = 400 ∧ (apiVision w).resp = none ∧
      (apiVision w).cropAttempted = false ∧
      (apiVision w).secondVisionCall = false ∧
      (apiVision w).openAICalled = false := by
  simp only [apiVision, hb, if_pos hface]
  exact ⟨trivial, trivial, trivial, trivial, trivial⟩

theorem faceGate_policy_witness :
    (apiVision ⟨some ⟨[], [], [], [], 1, "", "", []⟩, some [], 0, 0, none,
        none⟩).status = 400 ∧
    (apiVision ⟨some ⟨[], [], [], [], 1, "", "", []⟩, some [], 0, 0, none,
        none⟩).resp = none ∧
    (apiVision ⟨some ⟨[], [], [], [], 1, "", "", []⟩, some [], 0, 0, none,
        none⟩).cropAttempted = false ∧
    (apiVision ⟨some ⟨[], [], [], [], 1, "", "", []⟩, some [], 0, 0, none,
        none⟩).secondVisionCall = false ∧
    (apiVision ⟨some ⟨[], [], [], [], 1, "", "", []⟩, some [], 0, 0, none,
        none⟩).openAICalled = false :=
  faceGate_policy _ ⟨[], [], [], [], 1, "", "", []⟩ rfl (by decide)

/-- **C2, counterexample**: the claim says unparseable model output yields
`secondOpinion = null`; in the code only the transport `catch` returns `null`,
while a `JSON.parse` failure falls back to `json = {}` and yields a structured
guess with every field defaulted — not `null`. -/
theorem secondOpinion_unparseable_not_null :
    runOpenAIVisionExtract (some none) =
      some ⟨"", "", "", [], 0⟩ ∧
    runOpenAIVisionExtract (some none) ≠ none :=
  ⟨rfl, fun h => Option.noConfusion h⟩

/-- **C2, amended**: `secondOpinion` is `null` iff the model-based pass itself
failed (request/transport error); unparseable output instead yields a
structured guess with every field defaulted (`brand`/`model`/`product_type`
empty, `synonyms` empty, `confidence` 0), and parseable output yields the
guess extracted field-by-field (string fields defaulted to `''`, `synonyms`
kept only when an array, `confidence` kept only when a number). -/
theorem secondOpinion_spec (call : Option (Option JVal)) :
    (runOpenAIVisionExtract call = none ↔ call = none) ∧
    (call = some none →
      runOpenAIVisionExtract call = some ⟨"", "", "", [], 0⟩) ∧
    (∀ j, call = some (some j) →
      runOpenAIVisionExtract call = some (extractSecondOpinion j)) := by
  refine ⟨?_, ?_, ?_⟩
  · cases call with
    | none => simp [runOpenAIVisionExtract]
    | some p => simp [runOpenAIVisionExtract]
  · rintro rfl; rfl
  · rintro j rfl; rfl

theorem secondOpinion_spec_witness :
    runOpenAIVisionExtract
        (some (some (.jobj [("brand", .jstr "Dyson"), ("confidence", .jnum 1)]))) =
      some ⟨"Dyson", "", "", [], 1⟩ := by
  rw [(secondOpinion_spec _).2.2 (.jobj [("brand", .jstr "Dyson"), ("confidence", .jnum 1)]) rfl]
  rfl

theorem getEbayAppToken_hit {st : TokenState} {now : Int} {creds exchange}
    (h : tokenTruthy st.token = true) (h2 : now < st.exp - 60) :
    getEbayAppToken st now creds exchange = ⟨some st.token, st, false⟩ := by
  rw [getEbayAppToken.eq_def, if_pos ⟨h, h2⟩]

theorem getEbayAppToken_miss_nocreds {st : TokenState} {now : Int} {exchange}
    (h : ¬(tokenTruthy st.token = true ∧ now < st.exp - 60)) :
    getEbayAppToken st now false exchange = ⟨some none, st, false⟩ := by
  rw [getEbayAppToken.eq_def, if_neg h, if_pos (by simp)]

theorem getEbayAppToken_miss_throw {st : TokenState} {now : Int}
    (h : ¬(tokenTruthy st.token = true ∧ now < st.exp - 60)) :
    getEbayAppToken st now true none = ⟨none, st, true⟩ := by
  rw [getEbayAppToken.eq_def, if_neg h, if_neg (by simp)]

theorem getEbayAppToken_miss_refresh {st : TokenState} {now : Int} {r : TokenResp}
    (h : ¬(tokenTruthy st.token = true ∧ now < st.exp - 60)) :
    getEbayAppToken st now true (some r) =
      ⟨some (some r.access_token),
        ⟨some r.access_token, now + lifetimeOrDefault r.expires_in⟩, true⟩ := by
  rw [getEbayAppToken.eq_def, if_neg h, if_neg (by simp)]

/-- **C3**: with a truthy token cached until `T`, a call at `now = T - 61`
returns the cached token without touching the token endpoint; a call at
`now = T - 59` (with credentials and a successful exchange) contacts the
endpoint and caches the new token with expiry `now` plus the returned
lifetime, `7200` when the backend omits it; and in general the cached token is
returned (without an exchange) iff `now < T - 60`. -/
theorem tokenCache_spec (t : String) (ht : t ≠ "") (T : Int) (creds : Bool)
    (exchange : Option TokenResp) (r : TokenResp) :
    getEbayAppToken ⟨some t, T⟩ (T - 61) creds exchange =
      ⟨some (some t), ⟨some t, T⟩, false⟩ ∧
    getEbayAppToken ⟨some t, T⟩ (T - 59) true (some r) =
      ⟨some (some r.access_token),
        ⟨some r.access_token, (T - 59) + lifetimeOrDefault r.expires_in⟩, true⟩ ∧
    (r.expires_in = none → lifetimeOrDefault r.expires_in = 7200) ∧
    (∀ L : Int, r.expires_in = some L → L ≠ 0 → lifetimeOrDefault r.expires_in = L) ∧
    (∀ now : Int,
      ((getEbayAppToken ⟨some t, T⟩ now creds exchange).result = some (some t) ∧
        (getEbayAppToken ⟨some t, T⟩ now creds exchange).exchanged = false ∧
        (getEbayAppToken ⟨some t, T⟩ now creds exchange).state = ⟨some t, T⟩) ↔
      now < T - 60) := by
  have htt : tokenTruthy (⟨some t, T⟩ : TokenState).token = true := by
    simp [tokenTruthy, ht]
  refine ⟨?_, ?_, ?_, ?_, ?_⟩
  · exact getEbayAppToken_hit htt (by dsimp only; omega)
  · rw [getEbayAppToken_miss_refresh (by dsimp only; omega)]
  · rintro h; simp [lifetimeOrDefault, h]
  · rintro L h hL; simp [lifetimeOrDefault, h, hL]
  · intro now
    constructor
    · rintro ⟨hres, hexch, -⟩
      by_contra hge
      have hmiss : ¬(tokenTruthy (⟨some t, T⟩ : TokenState).token = true ∧
          now < (⟨some t, T⟩ : TokenState).exp - 60) := by
        rintro ⟨-, h⟩
        exact hge (by simpa using h)
      by_cases hc : creds
      · subst hc
        cases exchange with
        | none => rw [getEbayAppToken_miss_throw hmiss] at hres; simp at hres
        | some r' => rw [getEbayAppToken_miss_refresh hmiss] at hexch; simp at hexch
      · have hc' : creds = false := by simpa using hc
        subst hc'
        rw [getEbayAppToken_miss_nocreds hmiss] at hres
        simp at hres
    · intro hlt
      rw [getEbayAppToken_hit htt (by dsimp only; omega)]
      exact ⟨rfl, rfl, rfl⟩

theorem tokenCache_spec_witness :
    getEbayAppToken ⟨some "tok", 10000⟩ (10000 - 61) true none =
      ⟨some (some "tok"), ⟨some "tok", 10000⟩, false⟩ ∧
    getEbayAppToken ⟨some "tok", 10000⟩ (10000 - 59) true (some ⟨"fresh", none⟩) =
      ⟨some (some "fresh"), ⟨some "fresh", (10000 - 59) + 7200⟩, true⟩ := by
  obtain ⟨h1, h2, h3, -, -⟩ :=
    tokenCache_spec "tok" (by decide) 10000 true none ⟨"fresh", none⟩
  refine ⟨h1, ?_⟩
  rw [h2, h3 rfl]

/-- **C4, counterexample**: the claim "for all pairs of listings with identical
`(title, price, source)` exactly one survives" fails: the key coerces every
falsy price to `''`, so an earlier listing with the same title/source and
price `0` already occupies the key `"A||S"`, and an identical pair with price
`null` has *zero* survivors. -/
theorem dedup_identical_pair_zero_survivors :
    dedupListings [⟨"A", "S", .num 0, "EUR"⟩, ⟨"A", "S", .null, "EUR"⟩,
        ⟨"A", "S", .null, "EUR"⟩] = [⟨"A", "S", .num 0, "EUR"⟩] ∧
    (⟨"A", "S", .null, "EUR"⟩ : Listing) ∉
      dedupListings [⟨"A", "S", .num 0, "EUR"⟩, ⟨"A", "S", .null, "EUR"⟩,
        ⟨"A", "S", .null, "EUR"⟩] := by
  constructor
  · rfl
  · intro h
    rw [show dedupListings [⟨"A", "S", .num 0, "EUR"⟩, ⟨"A", "S", .null, "EUR"⟩,
        ⟨"A", "S", .null, "EUR"⟩] = [⟨"A", "S", .num 0, "EUR"⟩] from rfl] at h
    have := List.mem_singleton.mp h
    simp at this

/-- **C4, amended**: deduplication keys a listing by
`title + '|' + price + '|' + source` with falsy prices coerced to `''`
(so identical `(title, price, source)` triples always share a key); assuming
all titles nonempty (guaranteed by every producing adapter), the output is a
sublist of the input containing exactly the first occurrence of each distinct
key, in first-seen key order — in particular at most one listing of any
identical pair survives, namely the first occurrence of its key. -/
theorem dedup_key_spec (l : List Listing) (ht : ∀ r ∈ l, r.title ≠ "") :
    (∀ r1 r2 : Listing, r1.title = r2.title → r1.price = r2.price →
      r1.source = r2.source → listingKey r1 = listingKey r2) ∧
    (dedupListings l).Sublist l ∧
    (dedupListings l).map listingKey = dedupFirst (l.map listingKey) ∧
    (∀ r' ∈ dedupListings l,
      l.find? (fun x => listingKey x == listingKey r') = some r') := by
  refine ⟨fun r1 r2 h1 h2 h3 => by simp [listingKey, h1, h2, h3],
    dedupAux_sublist [] l, dedupAux_map_key ht [], fun r' h => (dedupAux_find? ht h).2⟩

theorem dedup_key_spec_witness :
    (dedupListings [⟨"a", "s", .null, "EUR"⟩, ⟨"b", "s", .null, "EUR"⟩,
        ⟨"a", "s", .null, "EUR"⟩]).Sublist
      [⟨"a", "s", .null, "EUR"⟩, ⟨"b", "s", .null, "EUR"⟩,
        ⟨"a", "s", .null, "EUR"⟩] ∧
    (dedupListings [⟨"a", "s", .null, "EUR"⟩, ⟨"b", "s", .null, "EUR"⟩,
        ⟨"a", "s", .null, "EUR"⟩]).map listingKey =
      dedupFirst ([⟨"a", "s", .null, "EUR"⟩, ⟨"b", "s", .null, "EUR"⟩,
        ⟨"a", "s", .null, "EUR"⟩].map listingKey) := by
  obtain ⟨-, h2, h3, -⟩ := dedup_key_spec
    [⟨"a", "s", .null, "EUR"⟩, ⟨"b", "s", .null, "EUR"⟩, ⟨"a", "s", .null, "EUR"⟩]
    (by decide)
  exact ⟨h2, h3⟩

theorem keyStr_of_falsy {p : JsPrice} (h : p.truthy = false) : p.keyStr = "" := by
  cases p with
  | null => rfl
  | nan => rfl
  | num q =>
    have : q = 0 := by simpa [JsPrice.truthy] using h
    simp [JsPrice.keyStr, this]

/-- **C10**: every falsy price (`null`, `0`, `NaN`) contributes the same empty
string to the dedup key, so two listings with identical title and source whose
prices are any two falsy values collapse to a single output listing (the first
one). -/
theorem falsyPrice_collapse :
    JsPrice.keyStr .null = "" ∧ JsPrice.keyStr .nan = "" ∧
    JsPrice.keyStr (.num 0) = "" ∧
    ∀ (t s cur cur' : String) (p p' : JsPrice), t ≠ "" →
      p.truthy = false → p'.truthy = false →
      dedupListings [⟨t, s, p, cur⟩, ⟨t, s, p', cur'⟩] = [⟨t, s, p, cur⟩] := by
  refine ⟨rfl, rfl, by simp [JsPrice.keyStr], ?_⟩
  intro t s cur cur' p p' ht hp hp'
  have hk : listingKey ⟨t, s, p', cur'⟩ = listingKey ⟨t, s, p, cur⟩ := by
    simp [listingKey, keyStr_of_falsy hp, keyStr_of_falsy hp']
  rw [dedupListings, dedupAux, if_pos ⟨List.not_mem_nil _, ht⟩, dedupAux,
    if_neg ?_, dedupAux]
  rintro ⟨hmem, -⟩
  exact hmem (by rw [hk]; exact List.mem_cons_self _ _)

theorem falsyPrice_collapse_witness :
    dedupListings [⟨"iPhone 12", "DoneDeal", .num 0, "EUR"⟩,
        ⟨"iPhone 12", "DoneDeal", .null, "EUR"⟩] =
      [⟨"iPhone 12", "DoneDeal", .num 0, "EUR"⟩] :=
  falsyPrice_collapse.2.2.2 "iPhone 12" "DoneDeal" "EUR" "EUR" (.num 0) .null
    (by decide) (by decide) (by decide)

/-- **C5**: the legacy Finding provider is invoked iff the Browse provider was
unavailable or contributed fewer than 4 listings; when it is not invoked, no
Finding region is ever called. -/
theorem findingFallback_iff (w : SearchWorld) :
    ((apiSearch w).findingInvoked = true ↔
      ((apiSearch w).browseUsed = false ∨ (apiSearch w).browseCount < 4)) ∧
    ((apiSearch w).browseUsed = true → ¬ (apiSearch w).browseCount < 4 →
      (apiSearch w).findingInvoked = false ∧ (apiSearch w).findingCalls = []) := by
  have hinv : (apiSearch w).findingInvoked =
      (!(apiSearch w).browseUsed || decide ((apiSearch w).browseCount < 4)) := rfl
  have hcalls : (apiSearch w).findingCalls =
      (if (apiSearch w).findingInvoked
        then callEbayFinding w.appId w.findingIE w.findingGB w.findingUS
        else ⟨false, [], []⟩).calls := rfl
  constructor
  · rw [hinv]
    cases h : (apiSearch w).browseUsed <;> simp
  · intro hu hc
    have hfalse : (apiSearch w).findingInvoked = false := by
      rw [hinv, hu]
      simpa using hc
    refine ⟨hfalse, ?_⟩
    rw [hcalls, hfalse]
    rfl

theorem findingFallback_iff_witness :
    (apiSearch ⟨⟨some "tok", 10000⟩, 0, false, none,
        some [⟨"a1", .null, none⟩, ⟨"a2", .null, none⟩, ⟨"a3", .null, none⟩,
          ⟨"a4", .null, none⟩, ⟨"a5", .null, none⟩],
        true, some [], some [], some [], none, none⟩).findingInvoked = false ∧
    (apiSearch ⟨⟨some "tok", 10000⟩, 0, false, none,
        some [⟨"a1", .null, none⟩, ⟨"a2", .null, none⟩, ⟨"a3", .null, none⟩,
          ⟨"a4", .null, none⟩, ⟨"a5", .null, none⟩],
        true, some [], some [], some [], none, none⟩).findingCalls = [] ∧
    (apiSearch ⟨⟨some "tok", 10000⟩, 0, false, none,
        some [⟨"a1", .null, none⟩, ⟨"a2", .null, none⟩, ⟨"a3", .null, none⟩,
          ⟨"a4", .null, none⟩, ⟨"a5", .null, none⟩],
        true, some [], some [], some [], none, none⟩).browseCount = 5 := by
  obtain ⟨h1, h2⟩ := (findingFallback_iff ⟨⟨some "tok", 10000⟩, 0, false, none,
    some [⟨"a1", .null, none⟩, ⟨"a2", .null, none⟩, ⟨"a3", .null, none⟩,
      ⟨"a4", .null, none⟩, ⟨"a5", .null, none⟩],
    true, some [], some [], some [], none, none⟩).2 (by decide) (by decide)
  exact ⟨h1, h2, by decide⟩

/-- **C6**: when the Finding fallback chain runs (with `EBAY_APP_ID` set), the
regions are contacted in the strict priority order `EBAY-IE`, `EBAY-GB`,
`EBAY-US` (the calls made are always a prefix of that list), and the chain
stops at the first region whose call succeeds — a success on `EBAY-IE`, with
however few items, means `EBAY-GB` and `EBAY-US` are never attempted, and
similarly a success on `EBAY-GB` means `EBAY-US` is never attempted. -/
theorem findingChain_spec (rIE rGB rUS : Option (List EbayRawItem)) :
    (callEbayFinding true rIE rGB rUS).calls <+:
      ["EBAY-IE", "EBAY-GB", "EBAY-US"] ∧
    (∀ xs, rIE = some xs →
      (callEbayFinding true rIE rGB rUS).calls = ["EBAY-IE"] ∧
      (callEbayFinding true rIE rGB rUS).ok = true) ∧
    (∀ xs, rIE = none → rGB = some xs →
      (callEbayFinding true rIE rGB rUS).calls = ["EBAY-IE", "EBAY-GB"] ∧
      (callEbayFinding true rIE rGB rUS).ok = true) ∧
    (rIE = none → rGB = none →
      (callEbayFinding true rIE rGB rUS).calls =
        ["EBAY-IE", "EBAY-GB", "EBAY-US"]) := by
  refine ⟨?_, ?_, ?_, ?_⟩
  · rcases rIE with - | xsIE
    · rcases rGB with - | xsGB
      · rcases rUS with - | xsUS
        · exact ⟨[], rfl⟩
        · exact ⟨[], rfl⟩
      · exact ⟨["EBAY-US"], rfl⟩
    · exact ⟨["EBAY-GB", "EBAY-US"], rfl⟩
  · rintro xs rfl
    exact ⟨rfl, rfl⟩
  · rintro xs rfl rfl
    exact ⟨rfl, rfl⟩
  · rintro rfl rfl
    rcases rUS with - | xsUS
    · rfl
    · rfl

theorem findingChain_spec_witness :
    (callEbayFinding true
      (some [⟨"item one", .null, none⟩, ⟨"item two", .null, none⟩,
        ⟨"item three", .null, none⟩]) none none).calls = ["EBAY-IE"] ∧
    (callEbayFinding true
      (some [⟨"item one", .null, none⟩, ⟨"item two", .null, none⟩,
        ⟨"item three", .null, none⟩]) none none).listings.length = 3 := by
  obtain ⟨-, h, -, -⟩ := findingChain_spec
    (some [⟨"item one", .null, none⟩, ⟨"item two", .null, none⟩,
      ⟨"item three", .null, none⟩]) none none
  exact ⟨(h _ rfl).1, by decide⟩

/-- **C7**: merging a first-pass bundle with a crop-pass bundle never shrinks
the `logos` or `webEntities` sets — every element of either input is in the
merged set — and the merged sets contain no duplicate string under
case-sensitive equality. -/
theorem merge_sets_spec (b c : SignalBundle) :
    (∀ x ∈ b.logos, x ∈ (mergeCropSignals b c).logos) ∧
    (∀ x ∈ c.logos, x ∈ (mergeCropSignals b c).logos) ∧
    (mergeCropSignals b c).logos.Nodup ∧
    (∀ x ∈ b.webEntities, x ∈ (mergeCropSignals b c).webEntities) ∧
    (∀ x ∈ c.webEntities, x ∈ (mergeCropSignals b c).webEntities) ∧
    (mergeCropSignals b c).webEntities.Nodup := by
  have hl : (mergeCropSignals b c).logos = dedupFirst (b.logos ++ c.logos) := rfl
  have hw : (mergeCropSignals b c).webEntities =
      dedupFirst (b.webEntities ++ c.webEntities) := rfl
  refine ⟨fun x hx => ?_, fun x hx => ?_, ?_, fun x hx => ?_, fun x hx => ?_, ?_⟩
  · rw [hl, mem_dedupFirst]; exact List.mem_append_left _ hx
  · rw [hl, mem_dedupFirst]; exact List.mem_append_right _ hx
  · rw [hl]; exact nodup_dedupFirst _
  · rw [hw, mem_dedupFirst]; exact List.mem_append_left _ hx
  · rw [hw, mem_dedupFirst]; exact List.mem_append_right _ hx
  · rw [hw]; exact nodup_dedupFirst _

theorem merge_sets_spec_witness :
    "Nike" ∈ (mergeCropSignals ⟨[], ["Dyson"], [], [], 0, "", "", ["vacuum"]⟩
        ⟨[], ["Dyson", "Nike"], [], [], 0, "", "", []⟩).logos ∧
    (mergeCropSignals ⟨[], ["Dyson"], [], [], 0, "", "", ["vacuum"]⟩
        ⟨[], ["Dyson", "Nike"], [], [], 0, "", "", []⟩).logos.Nodup := by
  obtain ⟨-, h2, h3, -, -, -⟩ := merge_sets_spec
    ⟨[], ["Dyson"], [], [], 0, "", "", ["vacuum"]⟩
    ⟨[], ["Dyson", "Nike"], [], [], 0, "", "", []⟩
  exact ⟨h2 "Nike" (by decide), h3⟩

theorem foldl_pick_mem (l : List ObjAnn) (a : ObjAnn) :
    l.foldl (fun best x => if jsScore best < jsScore x then x else best) a = a ∨
    l.foldl (fun best x => if jsScore best < jsScore x then x else best) a ∈ l := by
  induction l generalizing a with
  | nil => simp
  | cons y ys ih =>
    rw [List.foldl_cons]
    rcases ih (if jsScore a < jsScore y then y else a) with h | h
    · rw [h]
      split
      · right; exact List.mem_cons_self _ _
      · left; rfl
    · right; exact List.mem_cons_of_mem _ h

theorem topByScore_mem {anns : List ObjAnn} {top : ObjAnn}
    (h : topByScore anns = some top) : top ∈ anns := by
  cases anns with
  | nil => exact absurd h (by simp [topByScore])
  | cons a rest =>
    rw [topByScore] at h
    injection h with h
    rcases foldl_pick_mem rest a with h' | h'
    · rw [← h, h']; exact List.mem_cons_self _ _
    · rw [← h]; exact List.mem_cons_of_mem _ h'

theorem cropPrimaryObject_none_of_fewVerts {anns : List ObjAnn} (W H : Nat)
    (hverts : ∀ a ∈ anns, a.box.length < 4) :
    cropPrimaryObject anns W H = none := by
  cases htop : topByScore anns with
  | none => rw [cropPrimaryObject.eq_def, htop]
  | some top =>
    rw [cropPrimaryObject.eq_def, htop]
    simp only [if_pos (hverts top (topByScore_mem htop))]

/-- **C9**: when region detection succeeds but yields no region or only
bounding polygons with fewer than 4 vertices, `cropPrimaryObject` answers
"no region" (`null`) rather than an error, no second vision pass is made, and
the merged bundle after the fusion step equals the first-pass bundle exactly. -/
theorem noRegion_fusion_id (w : VisionWorld) (b : SignalBundle) (anns : List ObjAnn)
    (hb : w.firstPass = some b) (hface : b.faceCount = 0)
    (hanns : w.objAnns = some anns)
    (hverts : ∀ a ∈ anns, a.box.length < 4) :
    cropPrimaryObject anns w.metaW w.metaH = none ∧
    (apiVision w).status = 200 ∧
    (apiVision w).fused = some b ∧
    (apiVision w).secondVisionCall = false := by
  have hcrop := cropPrimaryObject_none_of_fewVerts w.metaW w.metaH hverts
  refine ⟨hcrop, ?_⟩
  simp only [apiVision, hb, hface, hanns, hcrop]
  norm_num

theorem noRegion_fusion_id_witness :
    cropPrimaryObject [⟨"obj", some 1, [⟨some 0, some 0⟩, ⟨some 1, some 0⟩,
        ⟨some 1, some 1⟩]⟩] 100 100 = none ∧
    (apiVision ⟨some ⟨[], [], [], [], 0, "ocr", "guess", []⟩,
        some [⟨"obj", some 1, [⟨some 0, some 0⟩, ⟨some 1, some 0⟩,
          ⟨some 1, some 1⟩]⟩], 100, 100, none, none⟩).fused =
      some ⟨[], [], [], [], 0, "ocr", "guess", []⟩ ∧
    (apiVision ⟨some ⟨[], [], [], [], 0, "ocr", "guess", []⟩,
        some [⟨"obj", some 1, [⟨some 0, some 0⟩, ⟨some 1, some 0⟩,
          ⟨some 1, some 1⟩]⟩], 100, 100, none, none⟩).secondVisionCall = false := by
  obtain ⟨h1, -, h3, h4⟩ := noRegion_fusion_id
    ⟨some ⟨[], [], [], [], 0, "ocr", "guess", []⟩,
      some [⟨"obj", some 1, [⟨some 0, some 0⟩, ⟨some 1, some 0⟩,
        ⟨some 1, some 1⟩]⟩], 100, 100, none, none⟩
    ⟨[], [], [], [], 0, "ocr", "guess", []⟩
    [⟨"obj", some 1, [⟨some 0, some 0⟩, ⟨some 1, some 0⟩, ⟨some 1, some 1⟩]⟩]
    rfl rfl rfl (by decide)
  exact ⟨h1, h3, h4⟩

/-- **C8**: for every OCR text, `extractModelHints` returns at most 10 entries,
without duplicates, and every entry is invariant under upper-casing (digit-only
matches are unchanged by `toUpperCase`; the other two passes upper-case their
matches before insertion, and upper-casing is idempotent); on the crafted OCR
string `"Model SM-G991B spare part 123456"` the result is exactly
`["123456", "SM-G991B"]` — it contains `"SM-G991B"` and `"123456"`, in
first-match order, with no duplicates. -/
theorem extractModelHints_spec :
    (∀ s : String, (extractModelHints s).length ≤ 10 ∧
      (extractModelHints s).Nodup ∧
      ∀ e ∈ extractModelHints s, strUpper e = e) ∧
    extractModelHints "Model SM-G991B spare part 123456" =
      ["123456", "SM-G991B"] := by
  constructor
  · intro s
    refine ⟨List.length_take_le _ _, ?_, ?_⟩
    · exact (List.take_sublist _ _).nodup (nodup_dedupFirst _)
    · intro e he
      have he' : e ∈ dedupFirst (jsMatch1 s ++
          ((jsMatch2 s).map strUpper ++ (jsMatch3 s).map strUpper)) := by
        have := List.take_subset 10 (dedupFirst (jsMatch1 s ++
          ((jsMatch2 s).map strUpper ++ (jsMatch3 s).map strUpper)))
        exact this (by simpa [extractModelHints] using he)
      rcases List.mem_append.mp (mem_dedupFirst.mp he') with h1 | h23
      · exact strUpper_of_all_digits e (scanFuel_match1_digits h1)
      · rcases List.mem_append.mp h23 with h2 | h3
        · obtain ⟨x, -, rfl⟩ := List.mem_map.mp h2
          exact strUpper_idem x
        · obtain ⟨x, -, rfl⟩ := List.mem_map.mp h3
          exact strUpper_idem x
  · rfl

theorem extractModelHints_spec_witness :
    (extractModelHints "Model SM-G991B spare part 123456").length ≤ 10 ∧
    strUpper "SM-G991B" = "SM-G991B" ∧
    "123456" ∈ extractModelHints "Model SM-G991B spare part 123456" := by
  refine ⟨(extractModelHints_spec.1 "Model SM-G991B spare part 123456").1,
    (extractModelHints_spec.1 "Model SM-G991B spare part 123456").2.2
      "SM-G991B" ?_, ?_⟩
  · rw [extractModelHints_spec.2]
    exact List.mem_cons_of_mem _ (List.mem_singleton.mpr rfl)
  · rw [extractModelHints_spec.2]
    exact List.mem_cons_self _ _

end ProductScanner
